import Mathlib

/-!
A shallow embedding of the RakNet listener (`listener.go`) of the
`go-raknet` repository, together with theorems settling the specification
claims about it.

Byte strings are modelled as `List Nat` (each element a byte value),
machine integers as `Int` with explicit wrapping where Go performs
fixed-width arithmetic, and fallible operations as `Option` / `Except`.
Constants and packet layouts that live in `conn.go` (which is not part of
the sources) are modelled from the specification and marked as such.
-/

set_option maxHeartbeats 1000000

namespace RakNet

/-- Interpret a big-endian byte list as a natural number. -/
def beToNat (bs : List Nat) : Nat :=
  bs.foldl (fun acc b => acc * 256 + b % 256) 0

/-- Reinterpret a `w`-byte unsigned value as a signed (two's complement) integer. -/
def toSigned (w : Nat) (v : Nat) : Int :=
  if v < 2 ^ (8 * w - 1) then (v : Int) else (v : Int) - 2 ^ (8 * w)

/-- Wrap an integer into the `int16` range, as Go conversion/arithmetic on `int16` does. -/
def wrap16 (x : Int) : Int :=
  (x + 2 ^ 15) % 2 ^ 16 - 2 ^ 15

/-- Big-endian two-byte encoding of a length, as produced by writing `int16(n)`. -/
def int16be (n : Nat) : List Nat :=
  [n / 256 % 256, n % 256]

/-- Modelled from the spec: the well-known game-protocol constant (`MinecraftProtocol`
in `conn.go`, not in the sources). Its exact numeric value is immaterial to the claims. -/
def MinecraftProtocol : Nat := 10

/-- Modelled from the spec: offline packet identifier bytes from `conn.go` (not in the
sources). Only their distinctness and the valid-flag bit matter to the claims. -/
def idUnconnectedPing : Nat := 1

/-- Modelled from the spec: packet identifier of OpenConnectionRequest1. -/
def idOpenConnectionRequest1 : Nat := 5

/-- Modelled from the spec: packet identifier of OpenConnectionReply1. -/
def idOpenConnectionReply1 : Nat := 6

/-- Modelled from the spec: packet identifier of OpenConnectionRequest2. -/
def idOpenConnectionRequest2 : Nat := 7

/-- Modelled from the spec: packet identifier of OpenConnectionReply2. -/
def idOpenConnectionReply2 : Nat := 8

/-- Modelled from the spec: packet identifier of IncompatibleProtocolVersion. -/
def idIncompatibleProtocolVersion : Nat := 25

/-- Modelled from the spec: packet identifier of the unconnected pong. -/
def idUnconnectedPong : Nat := 28

/-- `math.MaxInt16`, the 16-bit signed length limit. -/
def MaxInt16 : Nat := 32767

/-- The listener state that the claims depend on. `Protocol` is the public,
configurable field; `protocol` is the private field that `Listen` initialises.
`id` is the random instance identifier and `pongData` the current pong payload. -/
structure Listener where
  Protocol : Nat
  protocol : Nat
  id : Int
  pongData : List Nat
deriving DecidableEq

/-- `Listen` initialises a listener: both protocol fields are set to
`MinecraftProtocol` and the pong payload starts empty (`listener.pongData.Store([]byte\x7b\x7d)`). -/
def Listen (id : Int) : Listener :=
  { Protocol := MinecraftProtocol, protocol := MinecraftProtocol, id := id, pongData := [] }

/-- The application-visible configuration step of the accepted protocol version:
assignment to the public `Protocol` field after `Listen` returns. -/
def setProtocol (l : Listener) (p : Nat) : Listener :=
  { l with Protocol := p }

/-- `Listener.PongData`: rejects (panics on) payloads longer than `math.MaxInt16`,
otherwise stores the payload. The panic is modelled as `Except.error`. -/
def PongData (l : Listener) (data : List Nat) : Except String Listener :=
  if data.length > MaxInt16 then
    .error ("error setting pong data: pong data must not be longer than 32767")
  else
    .ok { l with pongData := data }

/-- A session handle as created by `newConn(listener.conn, addr, packet.MTUSize,
packet.ClientGUID)`; the collaborator internals are out of scope. -/
structure Conn where
  addr : String
  mtuSize : Int
  clientGUID : Int
deriving DecidableEq

/-- `newConn` from the collaborator interface: builds a session handle from the
remote address, the negotiated MTU and the client GUID. -/
def newConn (addr : String) (mtuSize : Int) (clientGUID : Int) : Conn :=
  { addr := addr, mtuSize := mtuSize, clientGUID := clientGUID }

/-- Lookup in the session table (`listener.connections.Load(addr.String())`). -/
def mapLookup (m : List (String × Conn)) (k : String) : Option Conn :=
  match m with
  | [] => none
  | (k2, v) :: rest => if k2 = k then some v else mapLookup rest k

/-- Store in the session table (`listener.connections.Store`), overwriting any
existing entry for the key. -/
def mapStore (m : List (String × Conn)) (k : String) (v : Conn) : List (String × Conn) :=
  match m with
  | [] => [(k, v)]
  | (k2, v2) :: rest => if k2 = k then (k, v) :: rest else (k2, v2) :: mapStore rest k v

/-- The listener-side state mutated by the packet dispatcher: the session table and
the queue of sessions awaiting `Accept`. -/
structure LState where
  listener : Listener
  connections : List (String × Conn)
  incoming : List Conn
deriving DecidableEq

/-- The state right after `Listen`: empty session table, empty accept queue. -/
def initState (l : Listener) : LState :=
  { listener := l, connections := [], incoming := [] }

/-- The decoded OpenConnectionRequest1 packet body: a 16-byte magic followed by the
protocol version byte, as read by `binary.Read` into the packet struct. -/
structure openConnectionRequest1 where
  Magic : List Nat
  Protocol : Nat
deriving DecidableEq

/-- Decoding of the OpenConnectionRequest1 body (after the identifier byte):
`binary.Read` consumes the 16 magic bytes and the protocol byte and fails on a
shorter buffer; trailing MTU padding is left unread. -/
def decodeOCR1 (rest : List Nat) : Option openConnectionRequest1 :=
  if 17 ≤ rest.length then
    some { Magic := rest.take 16, Protocol := (rest.drop 16).headD 0 }
  else
    none

/-- The decoded OpenConnectionRequest2 packet body. -/
structure openConnectionRequest2 where
  Magic : List Nat
  MTUSize : Int
  ClientGUID : Int
deriving DecidableEq

/-- Modelled from the spec: `openConnectionRequest2.UnmarshalBinary` lives in
`conn.go` (not in the sources). Layout per the spec: 16-byte magic, server-bound
address (IPv4 form: version byte, 4 address bytes, 2 port bytes), requested MTU
(`int16`), client GUID (`int64`), 33 bytes in total. -/
def decodeOCR2 (rest : List Nat) : Option openConnectionRequest2 :=
  if rest.length = 33 then
    some { Magic := rest.take 16,
           MTUSize := toSigned 2 (beToNat ((rest.drop 23).take 2)),
           ClientGUID := toSigned 8 (beToNat ((rest.drop 25).take 8)) }
  else
    none

/-- Modelled from the spec: the unconnected ping body is the client send
timestamp (`int64`, big-endian); `binary.Read` fails on a shorter buffer. -/
def decodeUnconnectedPing (rest : List Nat) : Option Int :=
  if 8 ≤ rest.length then some (toSigned 8 (beToNat (rest.take 8))) else none

/-- The unconnected pong reply assembled by `handleUnconnectedPing`: the server
GUID, the echoed timestamp, the optional two-byte length field and the payload. -/
structure PongOut where
  serverGUID : Int
  sendTimestamp : Int
  lengthField : Option (List Nat)
  payload : List Nat
deriving DecidableEq

/-- A reply datagram written to the socket by one of the offline handlers. -/
inductive Reply where
  | pong (p : PongOut)
  | reply1 (serverGUID : Int) (mtuSize : Int)
  | incompatible (serverGUID : Int) (serverProtocol : Nat)
  | reply2 (serverGUID : Int) (clientAddress : String) (mtuSize : Int)
deriving DecidableEq

/-- The observable outcome of `Listener.handle` for one datagram: the bytes
forwarded to an established session (if any), the reply sent (if any), and the
error returned to the read loop (if any). -/
structure HandleResult where
  forwarded : Option (Conn × List Nat)
  sent : Option Reply
  err : Option String
deriving DecidableEq

/-- A handler outcome that only returns an error. -/
def errResult (msg : String) : HandleResult :=
  { forwarded := none, sent := none, err := some msg }

/-- A handler outcome that only sends a reply. -/
def okSent (r : Reply) : HandleResult :=
  { forwarded := none, sent := some r, err := none }

/-- `Listener.handleUnconnectedPing`: decode the ping, then reply with a pong
carrying the instance identifier, the echoed timestamp and the pong payload,
length-prefixed exactly when the private protocol field is `MinecraftProtocol`. -/
def handleUnconnectedPingS (s : LState) (rest : List Nat) : LState × HandleResult :=
  match decodeUnconnectedPing rest with
  | none => (s, errResult ("error reading unconnected ping"))
  | some ts =>
      let pongData := s.listener.pongData
      (s, okSent (.pong
        { serverGUID := s.listener.id
          sendTimestamp := ts
          lengthField :=
            if s.listener.protocol = MinecraftProtocol then some (int16be pongData.length)
            else none
          payload := pongData }))

/-- `Listener.handleOpenConnectionRequest1`: `mtuSize` is the buffer length plus one
for the already-consumed identifier byte; a version mismatch sends
IncompatibleProtocolVersion and also returns an error; otherwise the reply
advertises `int16(mtuSize) + 28`. -/
def handleOpenConnectionRequest1S (s : LState) (rest : List Nat) : LState × HandleResult :=
  let mtuSize : Int := rest.length + 1
  match decodeOCR1 rest with
  | none => (s, errResult ("error reading open connection request 1"))
  | some packet =>
      if packet.Protocol ≠ s.listener.protocol then
        (s, { forwarded := none
              sent := some (.incompatible s.listener.id s.listener.protocol)
              err := some ("error handling open connection request 1: incompatible protocol version") })
      else
        (s, okSent (.reply1 s.listener.id (wrap16 (wrap16 mtuSize + 28))))

/-- `Listener.handleOpenConnectionRequest2`: decode the request, send
OpenConnectionReply2, then build a session handle, store it in the table keyed by
the address string, and append it to the incoming queue. -/
def handleOpenConnectionRequest2S (s : LState) (addr : String) (rest : List Nat) :
    LState × HandleResult :=
  match decodeOCR2 rest with
  | none => (s, errResult ("error reading open connection request 2"))
  | some packet =>
      let conn := newConn addr packet.MTUSize packet.ClientGUID
      ({ s with connections := mapStore s.connections addr conn
                incoming := s.incoming ++ [conn] },
       okSent (.reply2 s.listener.id addr packet.MTUSize))

/-- `Listener.handle`: if the sender already has a session-table entry the datagram
is forwarded verbatim to that session; otherwise the first byte selects an offline
handler, and an unknown identifier is an error exactly when its valid-flag bit
(`bitFlagValid`, the top bit) is clear. -/
def handle (s : LState) (addr : String) (d : List Nat) : LState × HandleResult :=
  match mapLookup s.connections addr with
  | some conn => (s, { forwarded := some (conn, d), sent := none, err := none })
  | none =>
      match d with
      | [] => (s, errResult ("error reading packet ID byte"))
      | packetID :: rest =>
          if packetID = idUnconnectedPing then handleUnconnectedPingS s rest
          else if packetID = idOpenConnectionRequest1 then handleOpenConnectionRequest1S s rest
          else if packetID = idOpenConnectionRequest2 then handleOpenConnectionRequest2S s addr rest
          else if packetID % 256 / 128 = 0 then (s, errResult ("unknown packet received"))
          else (s, { forwarded := none, sent := none, err := none })

/-- A registered session as seen by `Listener.Close`: what its collaborator
`Close()` call returns is the only thing that matters there. -/
structure CConn where
  addr : String
  closeResult : Option String
deriving DecidableEq

/-- The `connections.Range` loop body of `Listener.Close`, with its accumulator:
`if closeErr := conn.Close(); err != nil \x7b err = ... \x7d` tests the accumulator
`err`, not `closeErr`. -/
def closeRange : Option String → List CConn → Option String
  | err, [] => err
  | err, c :: rest =>
      closeRange (if err ≠ none then some ("error closing conn " ++ c.addr) else err) rest

/-- The inputs `Listener.Close` reacts to: the registered sessions (with the
results of their `Close()` calls) and the result of closing the UDP socket. -/
structure CloseInput where
  connections : List CConn
  socketCloseResult : Option String
deriving DecidableEq

/-- The observable outcome of `Listener.Close`: which sessions had `Close()`
invoked, whether the socket was closed, and the returned error. -/
structure CloseOutcome where
  closedConns : List String
  socketCloseCalled : Bool
  returned : Option String
deriving DecidableEq

/-- `Listener.Close`: cancel, range over the table closing every session, return
the accumulated error if set, then close the socket. `Range` always returns true,
so every session's `Close()` is invoked. -/
def listenerClose (s : CloseInput) : CloseOutcome :=
  let err := closeRange none s.connections
  match err with
  | some e =>
      { closedConns := s.connections.map (fun c => c.addr)
        socketCloseCalled := false
        returned := some e }
  | none =>
      match s.socketCloseResult with
      | some e2 =>
          { closedConns := s.connections.map (fun c => c.addr)
            socketCloseCalled := true
            returned := some ("error closing UDP listener: " ++ e2) }
      | none =>
          { closedConns := s.connections.map (fun c => c.addr)
            socketCloseCalled := true
            returned := none }

/-- Whether a candidate session pulled by `Accept` fires its handshake-completion
signal before the 10-second timer (the collaborator-defined outcome of the
`select`). -/
inductive Fate where
  | completes
  | timesOut
deriving DecidableEq

/-- A candidate session as seen by `Accept`. -/
structure AConn where
  addr : String
  fate : Fate
deriving DecidableEq

/-- The ways `Accept` can come back to the caller. -/
inductive AcceptOutcome where
  | accepted (c : AConn)
  | listenerClosedError
  | blocked
deriving DecidableEq

/-- The listener state `Accept` interacts with: the incoming queue (with whether
it has been closed), the cancellation flag, the session table, the set of
candidates forcibly closed, and the table-cleanup watchers spawned. -/
structure AcceptState where
  incoming : List AConn
  incomingClosed : Bool
  listenerClosed : Bool
  connections : List (String × AConn)
  closedConns : List String
  watchers : List String
deriving DecidableEq

/-- The `accept:` loop of `Listener.Accept`: pull a candidate (error if the queue
is exhausted and closed, blocked if exhausted but open); the `select` then either
observes cancellation (error), completion (spawn a table-cleanup watcher and
return the candidate), or the timeout (close the candidate and loop). -/
def acceptAux (incomingClosed listenerClosed : Bool) :
    List AConn → List String → List String →
    List AConn × List String × List String × AcceptOutcome
  | [], closedConns, watchers =>
      ([], closedConns, watchers,
        if incomingClosed then .listenerClosedError else .blocked)
  | c :: rest, closedConns, watchers =>
      if listenerClosed then (rest, closedConns, watchers, .listenerClosedError)
      else
        match c.fate with
        | .completes => (rest, closedConns, c.addr :: watchers, .accepted c)
        | .timesOut => acceptAux incomingClosed listenerClosed rest (c.addr :: closedConns) watchers

/-- `Listener.Accept` as a state transformer: note that it never touches the
session table itself; table removal happens only through a watcher spawned for a
candidate that completed. -/
def Accept (s : AcceptState) : AcceptState × AcceptOutcome :=
  let r := acceptAux s.incomingClosed s.listenerClosed s.incoming s.closedConns s.watchers
  ({ s with incoming := r.1, closedConns := r.2.1, watchers := r.2.2.1 }, r.2.2.2)

/-- The four bytes of the recognized game-server marker compared by
`string(data[:4]) == "MCPE"`. -/
def mcpeMarker : List Nat := [77, 67, 80, 69]

/-- The bytes of the fixed relay label written into field 8 (0-indexed 7). -/
def proxyBytes : List Nat := [80, 114, 111, 120, 121]

/-- `bytes.Split(data, []byte\x7b';'\x7d)`: split a byte list at every semicolon;
the empty input yields one empty fragment, matching the Go behaviour. -/
def splitSemi : List Nat → List (List Nat)
  | [] => [[]]
  | b :: rest =>
      let r := splitSemi rest
      if b = 59 then [] :: r
      else
        match r with
        | [] => [[b]]
        | f :: fs => (b :: f) :: fs

/-- `bytes.Join(fragments, []byte\x7b';'\x7d)`: interleave the fragments with
semicolons. -/
def joinSemi : List (List Nat) → List Nat
  | [] => []
  | [f] => f
  | f :: fs => f ++ 59 :: joinSemi fs

/-- Decimal digit bytes of a natural number, fuel-driven; `fuel ≥ n + 1` gives the
full representation. -/
def natDigits : Nat → Nat → List Nat
  | 0, _ => []
  | fuel + 1, n =>
      if n < 10 then [48 + n] else natDigits fuel (n / 10) ++ [48 + n % 10]

/-- `strconv.Itoa`: the decimal byte representation of an integer, with a leading
minus sign when negative. -/
def itoa (i : Int) : List Nat :=
  if i < 0 then 45 :: natDigits (i.natAbs + 1) i.natAbs
  else natDigits (i.toNat + 1) i.toNat

/-- One update step of the `HijackPong` background task on a fetched payload:
slicing `data[:4]` is out of bounds (modelled as `none`) on a payload shorter
than four bytes; a payload with the marker is split at semicolons, padded to at
least nine fragments, truncated to nine, fields 7 to 9 (1-indexed) rewritten and
re-joined; any other payload is kept unmodified. -/
def hijackTransform (id : Int) (data : List Nat) : Option (List Nat) :=
  if data.length < 4 then none
  else if data.take 4 = mcpeMarker then
    let fragments := splitSemi data
    let fragments := fragments ++ List.replicate (9 - fragments.length) []
    let fragments := fragments.take 9
    let fragments := fragments.set 6 (itoa id)
    let fragments := fragments.set 7 proxyBytes
    let fragments := fragments.set 8 []
    some (joinSemi fragments)
  else
    some data

/-! Helper lemmas. -/

theorem wrap16_eq_self (x : Int) (h1 : -32768 ≤ x) (h2 : x < 32768) : wrap16 x = x := by
  unfold wrap16
  omega

theorem splitSemi_ne_nil (d : List Nat) : splitSemi d ≠ [] := by
  induction d with
  | nil => simp [splitSemi]
  | cons b rest ih =>
      simp only [splitSemi]
      cases hr : splitSemi rest with
      | nil => exact absurd hr ih
      | cons f fs =>
          by_cases hb : b = 59 <;> simp [hb]

theorem not_semi_mem_splitSemi (d : List Nat) (l : List Nat) (hl : l ∈ splitSemi d) :
    59 ∉ l := by
  induction d generalizing l with
  | nil =>
      simp [splitSemi] at hl
      simp [hl]
  | cons b rest ih =>
      simp only [splitSemi] at hl
      by_cases hb : b = 59
      · simp [hb] at hl
        rcases hl with hl | hl
        · simp [hl]
        · exact ih l hl
      · cases hr : splitSemi rest with
        | nil => exact absurd hr (splitSemi_ne_nil rest)
        | cons f fs =>
            simp [hb, hr] at hl
            rcases hl with hl | hl
            · subst hl
              intro hmem
              rcases List.mem_cons.mp hmem with h59 | h59
              · exact hb h59.symm
              · have : 59 ∉ f := ih f (by simp [hr])
                exact this h59
            · exact ih l (by simp [hr, hl])

theorem splitSemi_no_semi (f : List Nat) (hf : 59 ∉ f) : splitSemi f = [f] := by
  induction f with
  | nil => rfl
  | cons b rest ih =>
      have hb : b ≠ 59 := fun h => hf (by simp [h])
      have hrest : 59 ∉ rest := fun h => hf (by simp [h])
      simp only [splitSemi, ih hrest]
      simp [hb]

theorem splitSemi_append (f t : List Nat) (hf : 59 ∉ f) :
    splitSemi (f ++ 59 :: t) = f :: splitSemi t := by
  induction f with
  | nil => simp [splitSemi]
  | cons b rest ih =>
      have hb : b ≠ 59 := fun h => hf (by simp [h])
      have hrest : 59 ∉ rest := fun h => hf (by simp [h])
      simp only [List.cons_append, splitSemi, List.append_eq]
      rw [ih hrest]
      simp [hb]

theorem splitSemi_joinSemi (fs : List (List Nat)) (hne : fs ≠ [])
    (hsemi : ∀ l ∈ fs, 59 ∉ l) : splitSemi (joinSemi fs) = fs := by
  induction fs with
  | nil => exact absurd rfl hne
  | cons f rest ih =>
      cases rest with
      | nil =>
          simp only [joinSemi]
          exact splitSemi_no_semi f (hsemi f (by simp))
      | cons f2 rest2 =>
          have h1 : joinSemi (f :: f2 :: rest2) = f ++ 59 :: joinSemi (f2 :: rest2) := rfl
          rw [h1, splitSemi_append f _ (hsemi f (by simp)),
            ih (by simp) (fun l hl => hsemi l (by simp [hl]))]

theorem natDigits_range (fuel n x : Nat) (hx : x ∈ natDigits fuel n) :
    48 ≤ x ∧ x ≤ 57 := by
  induction fuel generalizing n with
  | zero => simp [natDigits] at hx
  | succ fuel ih =>
      simp only [natDigits] at hx
      by_cases hn : n < 10
      · simp [hn] at hx
        omega
      · simp [hn] at hx
        rcases hx with hx | hx
        · exact ih (n / 10) hx
        · have : n % 10 < 10 := Nat.mod_lt _ (by omega)
          omega

theorem semi_not_mem_itoa (i : Int) : 59 ∉ itoa i := by
  unfold itoa
  by_cases hi : i < 0
  · simp only [hi, if_true]
    intro h
    rcases List.mem_cons.mp h with h | h
    · omega
    · have := natDigits_range _ _ _ h
      omega
  · simp only [hi, if_false]
    intro h
    have := natDigits_range _ _ _ h
    omega

theorem semi_not_mem_proxyBytes : 59 ∉ proxyBytes := by decide

theorem acceptAux_accepted (ic lc : Bool) (q : List AConn) (cc w : List String) (c2 : AConn)
    (h : (acceptAux ic lc q cc w).2.2.2 = .accepted c2) : c2.fate = .completes := by
  induction q generalizing cc w with
  | nil =>
      simp only [acceptAux] at h
      cases ic <;> simp at h
  | cons c q ih =>
      simp only [acceptAux] at h
      cases lc with
      | true => simp at h
      | false =>
          simp only [if_false, Bool.false_eq_true] at h
          cases hf : c.fate with
          | completes =>
              simp [hf] at h
              exact h ▸ hf
          | timesOut =>
              simp only [hf] at h
              exact ih _ _ h

theorem acceptAux_error (ic lc : Bool) (q : List AConn) (cc w : List String)
    (h : (acceptAux ic lc q cc w).2.2.2 = .listenerClosedError) : lc = true ∨ ic = true := by
  induction q generalizing cc w with
  | nil =>
      simp only [acceptAux] at h
      cases ic with
      | true => exact Or.inr rfl
      | false => simp at h
  | cons c q ih =>
      simp only [acceptAux] at h
      cases lc with
      | true => exact Or.inl rfl
      | false =>
          simp only [if_false, Bool.false_eq_true] at h
          cases hf : c.fate with
          | completes => simp [hf] at h
          | timesOut =>
              simp only [hf] at h
              exact ih _ _ h

/-! Theorems settling the claims. -/

/-- C1: for every OpenConnectionRequest1 datagram whose requested protocol version
equals the listener's accepted version, the OpenConnectionReply1 sent in response
advertises an MTU equal to the length of the received request body plus 1 (the
packet-ID byte consumed by the dispatcher) plus 28 (UDP/IP header overhead). The
bound `rest.length + 1 ≤ 1500` is the read-loop buffer size. -/
theorem C1_reply1_mtu (l : Listener) (addr : String) (rest : List Nat)
    (pkt : openConnectionRequest1)
    (hdec : decodeOCR1 rest = some pkt)
    (hver : pkt.Protocol = l.protocol)
    (hlen : rest.length + 1 ≤ 1500) :
    (handle (initState l) addr (idOpenConnectionRequest1 :: rest)).2.sent
      = some (.reply1 l.id ((rest.length : Int) + 1 + 28)) := by
  have h17 : 17 ≤ rest.length := by
    by_contra hcon
    simp [decodeOCR1, hcon] at hdec
  simp only [handle, initState, mapLookup, idOpenConnectionRequest1, idUnconnectedPing,
    idOpenConnectionRequest2]
  norm_num
  simp only [handleOpenConnectionRequest1S, hdec, hver]
  have w1 : wrap16 ((rest.length : Int) + 1) = (rest.length : Int) + 1 :=
    wrap16_eq_self _ (by omega) (by omega)
  have w2 : wrap16 ((rest.length : Int) + 1 + 28) = (rest.length : Int) + 1 + 28 :=
    wrap16_eq_self _ (by omega) (by omega)
  simp [okSent, w1, w2]

/-- Witness for C1: a 17-byte request body carrying the accepted protocol version
yields a reply advertising MTU 18 + 28 = 46. -/
theorem C1_reply1_mtu_witness :
    (handle (initState (Listen 7)) ("peer")
        (idOpenConnectionRequest1 :: (List.replicate 16 0 ++ [10]))).2.sent
      = some (.reply1 (Listen 7).id (((List.replicate 16 0 ++ [10]).length : Int) + 1 + 28)) :=
  C1_reply1_mtu (Listen 7) ("peer") (List.replicate 16 0 ++ [10])
    { Magic := List.replicate 16 0, Protocol := 10 }
    (by decide) (by decide) (by decide)

/-- C6: every datagram arriving from an address that has a session-table entry is
passed verbatim to that session's receive operation, regardless of its leading
byte; no offline handler runs, nothing is sent, no error is returned, and the
state is unchanged. -/
theorem C6_forward_verbatim (s : LState) (addr : String) (d : List Nat) (conn : Conn)
    (h : mapLookup s.connections addr = some conn) :
    handle s addr d = (s, { forwarded := some (conn, d), sent := none, err := none }) := by
  simp [handle, h]

/-- Witness for C6: a datagram whose leading byte is the OpenConnectionRequest2
identifier is still forwarded verbatim to the established session. -/
theorem C6_forward_verbatim_witness :
    handle
      { listener := Listen 0
        connections := [(("peer"), newConn ("peer") 1400 9)]
        incoming := [] }
      ("peer") [7, 1, 2]
    = ({ listener := Listen 0
         connections := [(("peer"), newConn ("peer") 1400 9)]
         incoming := [] },
       { forwarded := some (newConn ("peer") 1400 9, [7, 1, 2]), sent := none, err := none }) :=
  C6_forward_verbatim _ ("peer") [7, 1, 2] (newConn ("peer") 1400 9) (by decide)

/-- C7: for every valid unconnected ping from an address with no session entry,
the pong reply carries a send timestamp equal to the ping's, a GUID equal to the
listener's instance identifier, and a 2-byte payload length field exactly when
the listener operates in the length-prefixed (Minecraft) protocol mode. -/
theorem C7_pong_echo (s : LState) (addr : String) (rest : List Nat) (ts : Int)
    (hs : mapLookup s.connections addr = none)
    (hdec : decodeUnconnectedPing rest = some ts) :
    ∃ p : PongOut,
      (handle s addr (idUnconnectedPing :: rest)).2.sent = some (.pong p) ∧
      p.sendTimestamp = ts ∧
      p.serverGUID = s.listener.id ∧
      ((∃ pre, p.lengthField = some pre ∧ pre.length = 2) ↔
        s.listener.protocol = MinecraftProtocol) ∧
      p.payload = s.listener.pongData := by
  simp only [handle, hs, idUnconnectedPing]
  norm_num
  simp only [handleUnconnectedPingS, hdec, okSent]
  refine ⟨_, rfl, rfl, rfl, ?_, rfl⟩
  by_cases hp : s.listener.protocol = MinecraftProtocol
  · simp [hp, int16be]
  · simp [hp]

/-- Witness for C7: a freshly listening server (length-prefixed mode) answers a
ping with timestamp 0 by a pong echoing 0, carrying its identifier 3 and a
2-byte length field. -/
theorem C7_pong_echo_witness :
    ∃ p : PongOut,
      (handle (initState (Listen 3)) ("peer")
          (idUnconnectedPing :: List.replicate 8 0)).2.sent = some (.pong p) ∧
      p.sendTimestamp = 0 ∧
      p.serverGUID = (initState (Listen 3)).listener.id ∧
      ((∃ pre, p.lengthField = some pre ∧ pre.length = 2) ↔
        (initState (Listen 3)).listener.protocol = MinecraftProtocol) ∧
      p.payload = (initState (Listen 3)).listener.pongData :=
  C7_pong_echo (initState (Listen 3)) ("peer") (List.replicate 8 0) 0
    (by decide) (by decide)

/-- C8: setting a pong payload fails with a fatal configuration error (panic,
modelled as `Except.error`) if and only if the payload is longer than 32767
bytes; a payload of exactly 32767 bytes is stored, one of 32768 bytes is
rejected. -/
theorem C8_pong_payload_limit :
    (∀ (l : Listener) (data : List Nat),
        (∃ l2, PongData l data = .ok l2) ↔ data.length ≤ 32767) ∧
    PongData (Listen 0) (List.replicate 32767 0)
      = .ok { Listen 0 with pongData := List.replicate 32767 0 } ∧
    PongData (Listen 0) (List.replicate 32768 0)
      = .error ("error setting pong data: pong data must not be longer than 32767") := by
  refine ⟨fun l data => ?_, ?_, ?_⟩
  · unfold PongData MaxInt16
    by_cases h : data.length > 32767
    · simp [h]
    · simp [h]
      omega
  · unfold PongData MaxInt16
    rw [List.length_replicate]
    norm_num
  · unfold PongData MaxInt16
    rw [List.length_replicate]
    norm_num

/-- C10: the hijack updater's descriptor classification slices the first four
bytes of the fetched payload without a length guard, so it is total exactly on
payloads of at least four bytes; any shorter payload makes the access out of
bounds (modelled as `none`). -/
theorem C10_hijack_length_guard :
    (∀ (id : Int) (data : List Nat),
        hijackTransform id data = none ↔ data.length < 4) ∧
    hijackTransform 0 [77] = none := by
  refine ⟨fun id data => ?_, by decide⟩
  unfold hijackTransform
  by_cases h : data.length < 4
  · simp [h]
  · by_cases hm : data.take 4 = mcpeMarker <;> simp [h, hm]

/-- C2: `Listener.Close` is meant to report the first session-close failure, but
its `Range` callback tests the accumulator `err` (always nil) instead of
`closeErr`, so session-close errors are swallowed: with one registered session
whose close fails, every session is still closed and the socket is closed after
them, yet `Close` returns nil. The universally quantified first conjunct shows
the accumulated error is nil for every possible session table. -/
theorem C2_close_error_swallowed :
    (∀ conns, closeRange none conns = none) ∧
    listenerClose
      { connections := [{ addr := ("peer"), closeResult := some ("boom") }]
        socketCloseResult := none }
      = { closedConns := [("peer")], socketCloseCalled := true, returned := none } := by
  constructor
  · intro conns
    induction conns with
    | nil => rfl
    | cons c rest ih => simpa [closeRange] using ih
  · decide

/-- C3: the accepted-version check contradicts the documented configuration
surface: `handleOpenConnectionRequest1` compares against the private `protocol`
field, which `Listen` freezes at `MinecraftProtocol`, and never consults the
configurable `Protocol` field. With `Protocol` set to 5, a request carrying
version 5 (matching the configured value) is rejected with
IncompatibleProtocolVersion built from the private field. -/
theorem C3_configured_protocol_ignored :
    (setProtocol (Listen 0) 5).Protocol = 5 ∧
    (setProtocol (Listen 0) 5).protocol = MinecraftProtocol ∧
    (handle (initState (setProtocol (Listen 0) 5)) ("peer")
        (idOpenConnectionRequest1 :: (List.replicate 16 0 ++ [5]))).2
      = { forwarded := none
          sent := some (.incompatible 0 MinecraftProtocol)
          err := some ("error handling open connection request 1: incompatible protocol version") } := by
  refine ⟨rfl, rfl, ?_⟩
  decide

/-- C5: a full three-step handshake from one address (Request1 answered by
Reply1, then Request2 answered by Reply2) results in exactly one session-table
entry keyed by the sender's address string and exactly one session enqueued for
`accept()`. -/
theorem C5_handshake_single_entry (l : Listener) (addr : String)
    (r1 r2 : List Nat) (pkt1 : openConnectionRequest1) (pkt2 : openConnectionRequest2)
    (h1 : decodeOCR1 r1 = some pkt1)
    (hv : pkt1.Protocol = l.protocol)
    (h2 : decodeOCR2 r2 = some pkt2) :
    ∃ s1, handle (initState l) addr (idOpenConnectionRequest1 :: r1)
        = (s1, okSent (.reply1 l.id (wrap16 (wrap16 ((r1.length : Int) + 1) + 28)))) ∧
      s1 = initState l ∧
      (handle s1 addr (idOpenConnectionRequest2 :: r2)).2.sent
        = some (.reply2 l.id addr pkt2.MTUSize) ∧
      (handle s1 addr (idOpenConnectionRequest2 :: r2)).1.connections
        = [(addr, newConn addr pkt2.MTUSize pkt2.ClientGUID)] ∧
      (handle s1 addr (idOpenConnectionRequest2 :: r2)).1.incoming
        = [newConn addr pkt2.MTUSize pkt2.ClientGUID] := by
  refine ⟨initState l, ?_, rfl, ?_, ?_, ?_⟩ <;>
    simp only [handle, initState, mapLookup, idUnconnectedPing, idOpenConnectionRequest1,
      idOpenConnectionRequest2] <;>
    norm_num <;>
    simp [handleOpenConnectionRequest1S, handleOpenConnectionRequest2S, h1, h2, hv,
      mapStore, okSent]

/-- Witness for C5: a concrete handshake (17-byte Request1 body carrying version
10, 33-byte zero Request2 body) from address a ends with the single table entry
and the single queued session for that address. -/
theorem C5_handshake_single_entry_witness :
    ∃ s1, handle (initState (Listen 4)) ("a")
        (idOpenConnectionRequest1 :: (List.replicate 16 0 ++ [10]))
        = (s1, okSent (.reply1 (Listen 4).id
            (wrap16 (wrap16 (((List.replicate 16 0 ++ [10]).length : Int) + 1) + 28)))) ∧
      s1 = initState (Listen 4) ∧
      (handle s1 ("a") (idOpenConnectionRequest2 :: List.replicate 33 0)).2.sent
        = some (.reply2 (Listen 4).id ("a") 0) ∧
      (handle s1 ("a") (idOpenConnectionRequest2 :: List.replicate 33 0)).1.connections
        = [(("a"), newConn ("a") 0 0)] ∧
      (handle s1 ("a") (idOpenConnectionRequest2 :: List.replicate 33 0)).1.incoming
        = [newConn ("a") 0 0] :=
  C5_handshake_single_entry (Listen 4) ("a") (List.replicate 16 0 ++ [10])
    (List.replicate 33 0)
    { Magic := List.replicate 16 0, Protocol := 10 }
    { Magic := List.replicate 16 0, MTUSize := 0, ClientGUID := 0 }
    (by decide) (by decide) (by decide)

/-- C4 counterexample: a candidate that times out is forcibly closed and the
retry falls through to the listener-closed error, but its session-table entry is
still present afterwards and no cleanup watcher was spawned for it, so the entry
is never removed: the claim that the timed-out candidate leaves no session-table
entry behind is false. -/
theorem C4_timeout_leaves_table_entry :
    (Accept
        { incoming := [{ addr := ("peer"), fate := .timesOut }]
          incomingClosed := true
          listenerClosed := false
          connections := [(("peer"), { addr := ("peer"), fate := .timesOut })]
          closedConns := []
          watchers := [] }).1.closedConns = [("peer")] ∧
    (Accept
        { incoming := [{ addr := ("peer"), fate := .timesOut }]
          incomingClosed := true
          listenerClosed := false
          connections := [(("peer"), { addr := ("peer"), fate := .timesOut })]
          closedConns := []
          watchers := [] }).1.connections
      = [(("peer"), { addr := ("peer"), fate := .timesOut })] ∧
    (Accept
        { incoming := [{ addr := ("peer"), fate := .timesOut }]
          incomingClosed := true
          listenerClosed := false
          connections := [(("peer"), { addr := ("peer"), fate := .timesOut })]
          closedConns := []
          watchers := [] }).1.watchers = [] ∧
    (Accept
        { incoming := [{ addr := ("peer"), fate := .timesOut }]
          incomingClosed := true
          listenerClosed := false
          connections := [(("peer"), { addr := ("peer"), fate := .timesOut })]
          closedConns := []
          watchers := [] }).2 = .listenerClosedError := by
  refine ⟨rfl, rfl, rfl, rfl⟩

/-- C4 (amended): when a candidate pulled by `Accept` does not complete within
the 10-second bound, it is forcibly closed and `Accept` retries with the next
candidate; the timed-out candidate's session-table entry is not removed (the
table is untouched by `Accept`); a candidate is only ever returned if it
completed; and the only error surfaced is the listener-closed error, which (with
the cancellation flag clear) requires the incoming queue to have been closed. -/
theorem C4_accept_timeout_retries (s : AcceptState) (c : AConn) (rest : List AConn)
    (h : s.incoming = c :: rest)
    (hc : c.fate = .timesOut)
    (hl : s.listenerClosed = false) :
    Accept s = Accept { s with incoming := rest, closedConns := c.addr :: s.closedConns } ∧
    (Accept s).1.connections = s.connections ∧
    (∀ c2, (Accept s).2 = .accepted c2 → c2.fate = .completes) ∧
    ((Accept s).2 = .listenerClosedError → s.incomingClosed = true) := by
  obtain ⟨inc, ic, lc, conns, cc, w⟩ := s
  simp only at h hl
  subst h
  subst hl
  refine ⟨?_, rfl, ?_, ?_⟩
  · simp [Accept, acceptAux, hc]
  · intro c2 h2
    simp only [Accept] at h2
    exact acceptAux_accepted _ _ _ _ _ _ h2
  · intro h2
    simp only [Accept] at h2
    rcases acceptAux_error _ _ _ _ _ h2 with h3 | h3
    · cases h3
    · exact h3

/-- Witness for C4: with a timed-out candidate followed by a completing one, the
run closes the first, leaves the table alone, and any accepted candidate is a
completed one. -/
theorem C4_accept_timeout_retries_witness :
    Accept
        { incoming := [{ addr := ("a"), fate := .timesOut },
                       { addr := ("b"), fate := .completes }]
          incomingClosed := false
          listenerClosed := false
          connections := [(("a"), { addr := ("a"), fate := .timesOut })]
          closedConns := []
          watchers := [] }
      = Accept
        { incoming := [{ addr := ("b"), fate := .completes }]
          incomingClosed := false
          listenerClosed := false
          connections := [(("a"), { addr := ("a"), fate := .timesOut })]
          closedConns := [("a")]
          watchers := [] } ∧
    (Accept
        { incoming := [{ addr := ("a"), fate := .timesOut },
                       { addr := ("b"), fate := .completes }]
          incomingClosed := false
          listenerClosed := false
          connections := [(("a"), { addr := ("a"), fate := .timesOut })]
          closedConns := []
          watchers := [] }).1.connections
      = [(("a"), { addr := ("a"), fate := .timesOut })] ∧
    (∀ c2, (Accept
        { incoming := [{ addr := ("a"), fate := .timesOut },
                       { addr := ("b"), fate := .completes }]
          incomingClosed := false
          listenerClosed := false
          connections := [(("a"), { addr := ("a"), fate := .timesOut })]
          closedConns := []
          watchers := [] }).2 = .accepted c2 → c2.fate = .completes) ∧
    ((Accept
        { incoming := [{ addr := ("a"), fate := .timesOut },
                       { addr := ("b"), fate := .completes }]
          incomingClosed := false
          listenerClosed := false
          connections := [(("a"), { addr := ("a"), fate := .timesOut })]
          closedConns := []
          watchers := [] }).2 = .listenerClosedError → False) := by
  have h := C4_accept_timeout_retries
    { incoming := [{ addr := ("a"), fate := .timesOut },
                   { addr := ("b"), fate := .completes }]
      incomingClosed := false
      listenerClosed := false
      connections := [(("a"), { addr := ("a"), fate := .timesOut })]
      closedConns := []
      watchers := [] }
    { addr := ("a"), fate := .timesOut }
    [{ addr := ("b"), fate := .completes }]
    rfl rfl rfl
  exact ⟨h.1, h.2.1, h.2.2.1, fun h2 => by simpa using h.2.2.2 h2⟩

/-- C9: when the hijack updater fetches a payload beginning with the recognized
game-server marker, the stored payload has at least nine semicolon-delimited
fields whose fields 7, 8 and 9 (1-indexed) are the decimal listener instance
identifier, the fixed relay label and the empty field; a fetched payload (of at
least four bytes) without the marker is stored unmodified. -/
theorem C9_hijack_rewrite (id : Int) (data : List Nat) (h4 : 4 ≤ data.length) :
    (data.take 4 = mcpeMarker →
      ∃ stored, hijackTransform id data = some stored ∧
        9 ≤ (splitSemi stored).length ∧
        (splitSemi stored)[6]? = some (itoa id) ∧
        (splitSemi stored)[7]? = some proxyBytes ∧
        (splitSemi stored)[8]? = some []) ∧
    (data.take 4 ≠ mcpeMarker → hijackTransform id data = some data) := by
  have hnot4 : ¬ data.length < 4 := by omega
  constructor
  · intro hm
    set fs := splitSemi data with hfs
    set padded := fs ++ List.replicate (9 - fs.length) [] with hpadded
    set t9 := padded.take 9 with ht9
    set ff := ((t9.set 6 (itoa id)).set 7 proxyBytes).set 8 ([] : List Nat) with hff
    have hpadlen : 9 ≤ padded.length := by
      rw [hpadded, List.length_append, List.length_replicate]
      omega
    have ht9len : t9.length = 9 := by
      rw [ht9, List.length_take]
      omega
    have hfflen : ff.length = 9 := by
      rw [hff]
      simp [List.length_set, ht9len]
    have hffne : ff ≠ [] := by
      intro hcon
      rw [hcon] at hfflen
      simp at hfflen
    have hffsemi : ∀ l ∈ ff, 59 ∉ l := by
      intro l hl
      rw [hff] at hl
      rcases List.mem_or_eq_of_mem_set hl with hl | hl
      · rcases List.mem_or_eq_of_mem_set hl with hl | hl
        · rcases List.mem_or_eq_of_mem_set hl with hl | hl
          · have hl2 : l ∈ padded := List.take_subset _ _ (ht9 ▸ hl)
            rcases List.mem_append.mp (hpadded ▸ hl2) with hl3 | hl3
            · exact not_semi_mem_splitSemi data l (hfs ▸ hl3)
            · rw [List.eq_of_mem_replicate hl3]
              simp
          · rw [hl]
            exact semi_not_mem_itoa id
        · rw [hl]
          exact semi_not_mem_proxyBytes
      · rw [hl]
        simp
    have hsplit : splitSemi (joinSemi ff) = ff := splitSemi_joinSemi ff hffne hffsemi
    refine ⟨joinSemi ff, ?_, ?_, ?_, ?_, ?_⟩
    · simp only [hijackTransform, hnot4, if_false, hm, if_true]
    · rw [hsplit, hfflen]
    · rw [hsplit, hff]
      rw [List.getElem?_set_ne (by omega), List.getElem?_set_ne (by omega),
        List.getElem?_set_self (by omega)]
    · rw [hsplit, hff]
      rw [List.getElem?_set_ne (by omega),
        List.getElem?_set_self (by rw [List.length_set]; omega)]
    · rw [hsplit, hff]
      rw [List.getElem?_set_self (by rw [List.length_set, List.length_set]; omega)]
  · intro hm
    simp [hijackTransform, hnot4, hm]

/-- Witness for C9: hijacking the four-byte payload that is exactly the marker,
with instance identifier 0, stores a nine-field descriptor whose fields 7 to 9
are the identifier, the relay label and the empty field. -/
theorem C9_hijack_rewrite_witness :
    ((mcpeMarker.take 4 = mcpeMarker →
      ∃ stored, hijackTransform 0 mcpeMarker = some stored ∧
        9 ≤ (splitSemi stored).length ∧
        (splitSemi stored)[6]? = some (itoa 0) ∧
        (splitSemi stored)[7]? = some proxyBytes ∧
        (splitSemi stored)[8]? = some []) ∧
    (mcpeMarker.take 4 ≠ mcpeMarker → hijackTransform 0 mcpeMarker = some mcpeMarker)) :=
  C9_hijack_rewrite 0 mcpeMarker (by decide)


end RakNet
